import Mathlib

/-!
Verification development for the `hebrew` character-catalog module
(`src/hebrew/chars.py`).  The data model (`HebrewChar`, the alphabet table
`_ALL_CHARS`, the `CHARS` mapping and the derived views) and the name-search
operation are embedded shallowly below; Python strings become Lean strings,
the Python dict becomes an association list with last-write-wins lookup, and
`str.lower()` becomes an ASCII case fold (every searchable name in the table
is plain ASCII, and Hebrew letters are unchanged by lowercasing).
-/

/-- Enumeration of the kinds of chars used in Hebrew, after the Python enum
`HebrewCharTypes`. -/
inductive HebrewCharTypes where
  | letter
  | yiddish_letter
  | punctuation
  | nikud
deriving DecidableEq

/-- Metadata record for one Hebrew glyph, after the Python dataclass
`HebrewChar`.  The optional alias lists (`None` in Python) are embedded as
possibly empty lists, which is how the accessors consume them. -/
structure HebrewChar where
  char : String
  name : String
  hebrew_name : String
  name_alts : List String := []
  hebrew_name_alts : List String := []
  final_letter : Bool := false
  type : HebrewCharTypes := HebrewCharTypes.letter
deriving DecidableEq

/-- Accessor `HebrewChar.names`: the canonical English name followed by the
English alternates. -/
def HebrewChar.names (c : HebrewChar) : List String :=
  c.name :: c.name_alts

/-- Accessor `HebrewChar.hebrew_names`: the canonical Hebrew name followed by
the Hebrew alternates. -/
def HebrewChar.hebrew_names (c : HebrewChar) : List String :=
  c.hebrew_name :: c.hebrew_name_alts

/-- ASCII lowercasing of a single character, the restriction of Python
`str.lower` to the characters that occur in the table names and queries. -/
def lowerChar (c : Char) : Char :=
  if 65 ≤ c.toNat ∧ c.toNat ≤ 90 then Char.ofNat (c.toNat + 32) else c

/-- ASCII lowercasing of a string, modelling Python `str.lower()` on the
ASCII names of the table. -/
def lowerStr (t : String) : String :=
  ⟨t.data.map lowerChar⟩

def ALEPH : HebrewChar :=
  { char := "א", name := "Aleph", hebrew_name := "אָלֶף", name_alts := ["Alef"] }
def BET : HebrewChar :=
  { char := "בּ", name := "Bet", hebrew_name := "בֵּית" }
def VET : HebrewChar :=
  { char := "ב", name := "Vet", hebrew_name := "בֵית" }
def GIMEL : HebrewChar :=
  { char := "ג", name := "Gimel", hebrew_name := "גִימֵל" }
def DALET : HebrewChar :=
  { char := "ד", name := "Dalet", hebrew_name := "דָלֶת", name_alts := ["Daled"] }
def HE : HebrewChar :=
  { char := "ה", name := "He", hebrew_name := "הֵא", name_alts := ["Hei", "Hey"] }
def VAV : HebrewChar :=
  { char := "ו", name := "Vav", hebrew_name := "וָו", name_alts := ["Vuv"] }
def ZAYIN : HebrewChar :=
  { char := "ז", name := "Zayin", hebrew_name := "זַיִן" }
def CHET : HebrewChar :=
  { char := "ח", name := "Chet", hebrew_name := "חֵית", name_alts := ["Het", "Ches"] }
def TET : HebrewChar :=
  { char := "ט", name := "Tet", hebrew_name := "טֵית", name_alts := ["Tes"] }
def YOD : HebrewChar :=
  { char := "י", name := "Yod", hebrew_name := "יוֹד", name_alts := ["Yud"] }
def CAF : HebrewChar :=
  { char := "כּ", name := "Kaf", hebrew_name := "כַּף" }
def KAF_SOFIT : HebrewChar :=
  { char := "ךּ", name := "Kaf Sofit", final_letter := true,
    hebrew_name := "כַּף סוֹפִית", name_alts := ["Final Kaf"] }
def CHAF : HebrewChar :=
  { char := "כ", name := "Chaf", hebrew_name := "כַף" }
def CHAF_SOFIT : HebrewChar :=
  { char := "ך", name := "Chaf Sofit", final_letter := true,
    hebrew_name := "כַף סוֹפִית", name_alts := ["Final Chaf"] }
def LAMED : HebrewChar :=
  { char := "ל", name := "Lamed", hebrew_name := "לָמֶד", name_alts := ["Lamid"] }
def MEM : HebrewChar :=
  { char := "מ", name := "Mem", hebrew_name := "מֵם" }
def MEM_SOFIT : HebrewChar :=
  { char := "ם", name := "Mem Sofit", final_letter := true,
    hebrew_name := "מֵם סוֹפִית", name_alts := ["Final Mem"] }
def NUN : HebrewChar :=
  { char := "נ", name := "Nun", hebrew_name := "נוּן" }
def NUN_SOFIT : HebrewChar :=
  { char := "ן", name := "Nun Sofit", final_letter := true,
    hebrew_name := "נוּן סוֹפִית", name_alts := ["Final Nun"] }
def SAMEKH : HebrewChar :=
  { char := "ס", name := "Samekh", hebrew_name := "סָמֶך", name_alts := ["Samach"] }
def AYIN : HebrewChar :=
  { char := "ע", name := "Ayin", hebrew_name := "עַיִן" }
def PE : HebrewChar :=
  { char := "פּ", name := "Pe", hebrew_name := "" }
def FE : HebrewChar :=
  { char := "פ", name := "Fe", hebrew_name := "פֵא" }
def PE_SOFIT : HebrewChar :=
  { char := "ףּ", name := "Fe Sofit", final_letter := true,
    hebrew_name := "פֵּא סוֹפִית", name_alts := ["Final Pe"] }
def FE_SOFIT : HebrewChar :=
  { char := "ף", name := "Fe Sofit", final_letter := true,
    hebrew_name := "פֵא סוֹפִית", name_alts := ["Final Fe"] }
def TSADI : HebrewChar :=
  { char := "צ", name := "Tsadi", hebrew_name := "צַדִי",
    hebrew_name_alts := ["צדיק"], name_alts := ["Tzadik"] }
def TSADI_SOFIT : HebrewChar :=
  { char := "ץ", name := "Tsadi Sofit", final_letter := true,
    hebrew_name := "צַדִי סוֹפִית", hebrew_name_alts := ["צדיק סופית"] }
def QOF : HebrewChar :=
  { char := "ק", name := "Qof", hebrew_name := "קוֹף", name_alts := ["Kuf"] }
def RESH : HebrewChar :=
  { char := "ר", name := "Resh", hebrew_name := "רֵישׁ" }
def SHIN : HebrewChar :=
  { char := "שׁ", name := "Shin", hebrew_name := "שִׁין" }
def SIN : HebrewChar :=
  { char := "שׂ", name := "Sin", hebrew_name := "שִׂין" }
def PLAIN_SIN : HebrewChar :=
  { char := "ש", name := "Plain Sin", hebrew_name := "שִׁין",
    hebrew_name_alts := ["שִׂין"] }
def TAV : HebrewChar :=
  { char := "תּ", name := "Tav", hebrew_name := "תּו", name_alts := ["Taf"] }
def SAV : HebrewChar :=
  { char := "ת", name := "Sav", hebrew_name := "תָו", name_alts := ["Saf"] }
def DOUBLE_YOD : HebrewChar :=
  { char := "ײ", name := "Double Yod", hebrew_name := "", name_alts := ["Saf"],
    type := HebrewCharTypes.yiddish_letter }
def DOUBLE_VAV : HebrewChar :=
  { char := "װ", name := "Double Vav", hebrew_name := "",
    name_alts := ["Double Vuv"], type := HebrewCharTypes.yiddish_letter }
def VAV_YOD : HebrewChar :=
  { char := "ױ", name := "Vav Yod", hebrew_name := "",
    type := HebrewCharTypes.yiddish_letter }

/-- The alphabet table `_ALL_CHARS`, in the declaration order of the Python
module. -/
def _ALL_CHARS : List HebrewChar :=
  [ALEPH, BET, VET, GIMEL, DALET, HE, VAV, ZAYIN, CHET, TET, YOD, CAF,
   KAF_SOFIT, CHAF, CHAF_SOFIT, LAMED, MEM, MEM_SOFIT, NUN, NUN_SOFIT,
   SAMEKH, AYIN, PE, FE, PE_SOFIT, FE_SOFIT, TSADI, TSADI_SOFIT, QOF, RESH,
   SHIN, SIN, PLAIN_SIN, TAV, SAV, DOUBLE_YOD, DOUBLE_VAV, VAV_YOD]

/-- The `CHARS` dict comprehension: the key/value pairs, in insertion order. -/
def CHARS : List (String × HebrewChar) :=
  _ALL_CHARS.map (fun c => (c.char, c))

/-- Lookup in a Python dict built by consecutive insertions: the LAST pair
with the key wins, absent keys give `none`. -/
def dictGet (l : List (String × HebrewChar)) (k : String) : Option HebrewChar :=
  match l with
  | [] => none
  | (k1, v) :: rest =>
    match dictGet rest k with
    | some v1 => some v1
    | none => if k1 = k then some v else none

/-- The matching test of `HebrewChar.search` for one record, with the query
already lowercased: membership of the query in the lowercased name list. -/
def searchPred (key : String) (c : HebrewChar) : Bool :=
  decide (key ∈ c.names.map lowerStr)

/-- The classmethod `HebrewChar.search`: scan `_ALL_CHARS`, and on the first
record whose lowercased names contain the lowercased query return the `CHARS`
entry for its char; otherwise return `none`. -/
def HebrewChar.search (char_name : String) : Option HebrewChar :=
  match _ALL_CHARS.find? (searchPred (lowerStr char_name)) with
  | some c => dictGet CHARS c.char
  | none => none

/-- The derived view `FINAL_LETTERS`: final letters whose char is a single
code point. -/
def FINAL_LETTERS : List HebrewChar :=
  _ALL_CHARS.filter (fun c => c.final_letter && c.char.length == 1)

/-- The derived view `YIDDISH_LETTERS`: records typed as Yiddish letters. -/
def YIDDISH_LETTERS : List HebrewChar :=
  _ALL_CHARS.filter (fun c => decide (c.type = HebrewCharTypes.yiddish_letter))

/-- Search with the lowercasing of the query already applied; the body of
`HebrewChar.search` factors through it. -/
def searchKey (key : String) : Option HebrewChar :=
  match _ALL_CHARS.find? (searchPred key) with
  | some c => dictGet CHARS c.char
  | none => none

/-- Modelled from the spec: scan the given records in order; on the first one
with a name that equals the query up to case, resolve through the registry by
its char; if the list is exhausted, report not-found. -/
def search_spec_scan (q : String) : List HebrewChar → Option HebrewChar
  | [] => none
  | c :: rest =>
    if ∃ n ∈ c.names, lowerStr n = lowerStr q then dictGet CHARS c.char
    else search_spec_scan q rest

/-- Modelled from the spec: the `search_by_name` operation, scanning the
whole alphabet table in declaration order. -/
def search_by_name (q : String) : Option HebrewChar :=
  search_spec_scan q _ALL_CHARS

lemma search_eq_searchKey (q : String) :
    HebrewChar.search q = searchKey (lowerStr q) := rfl

lemma dictGet_self : ∀ c ∈ _ALL_CHARS, dictGet CHARS c.char = some c := by decide

lemma searchPred_iff (key : String) (c : HebrewChar) :
    searchPred key c = true ↔ ∃ n ∈ c.names, lowerStr n = key := by
  simp [searchPred, List.mem_map, eq_comm]

lemma find_scan_eq (q : String) (l : List HebrewChar) :
    (match l.find? (searchPred (lowerStr q)) with
     | some c => dictGet CHARS c.char
     | none => none) = search_spec_scan q l := by
  induction l with
  | nil => rfl
  | cons c rest ih =>
    by_cases h : searchPred (lowerStr q) c = true
    · rw [List.find?_cons_of_pos _ h]
      rw [search_spec_scan, if_pos ((searchPred_iff (lowerStr q) c).mp h)]
    · rw [List.find?_cons_of_neg _ h]
      rw [search_spec_scan,
        if_neg (fun hm => h ((searchPred_iff (lowerStr q) c).mpr hm))]
      exact ih

lemma search_eq_find (q : String) (r : HebrewChar)
    (h : HebrewChar.search q = some r) :
    _ALL_CHARS.find? (searchPred (lowerStr q)) = some r ∧ r ∈ _ALL_CHARS := by
  unfold HebrewChar.search at h
  cases hf : _ALL_CHARS.find? (searchPred (lowerStr q)) with
  | none => rw [hf] at h; simp at h
  | some c =>
    rw [hf] at h
    have hmem : c ∈ _ALL_CHARS := List.mem_of_find?_eq_some hf
    have hc : dictGet CHARS c.char = some c := dictGet_self c hmem
    have h2 : dictGet CHARS c.char = some r := h
    rw [hc] at h2
    have hcr : c = r := Option.some.inj h2
    subst hcr
    exact ⟨rfl, hmem⟩

lemma roundtrip_core :
    ∀ R ∈ _ALL_CHARS, ∀ N ∈ R.names,
      ¬((R = FE_SOFIT ∧ N = "Fe Sofit") ∨ (R = DOUBLE_YOD ∧ N = "Saf")) →
      (searchKey (lowerStr N)).map (fun c => c.char) = some R.char := by decide

/-- C3: no two distinct records of the alphabet table have the same char
value, so the `CHARS` mapping has exactly one entry per record. -/
theorem chars_table_keys_nodup :
    (_ALL_CHARS.map (fun c => c.char)).Nodup ∧
    (CHARS.map Prod.fst).Nodup ∧ CHARS.length = _ALL_CHARS.length := by
  refine ⟨by decide, by decide, ?_⟩
  simp [CHARS]

/-- C4: for every record of the alphabet table, looking its char up in the
`CHARS` mapping returns that very record. -/
theorem chars_lookup_consistent :
    ∀ c ∈ _ALL_CHARS, dictGet CHARS c.char = some c :=
  dictGet_self

/-- Witness for C4 at the Aleph record. -/
theorem chars_lookup_consistent_witness :
    ALEPH ∈ _ALL_CHARS ∧ dictGet CHARS ALEPH.char = some ALEPH :=
  ⟨by decide, chars_lookup_consistent ALEPH (by decide)⟩

/-- C5: `FINAL_LETTERS` holds exactly the single-code-point final letters of
the table, `YIDDISH_LETTERS` exactly the records typed as Yiddish letters,
and both keep the relative order of the table. -/
theorem derived_views_correct :
    (∀ c : HebrewChar, c ∈ FINAL_LETTERS ↔
      c ∈ _ALL_CHARS ∧ c.final_letter = true ∧ c.char.length = 1) ∧
    (∀ c : HebrewChar, c ∈ YIDDISH_LETTERS ↔
      c ∈ _ALL_CHARS ∧ c.type = HebrewCharTypes.yiddish_letter) ∧
    FINAL_LETTERS.Sublist _ALL_CHARS ∧ YIDDISH_LETTERS.Sublist _ALL_CHARS := by
  refine ⟨?_, ?_, List.filter_sublist _, List.filter_sublist _⟩
  · intro c
    simp [FINAL_LETTERS, List.mem_filter, and_assoc]
  · intro c
    simp [YIDDISH_LETTERS, List.mem_filter]

/-- Witness for C5 at the Chaf Sofit and Double Yod records. -/
theorem derived_views_correct_witness :
    CHAF_SOFIT ∈ FINAL_LETTERS ∧ DOUBLE_YOD ∈ YIDDISH_LETTERS :=
  ⟨(derived_views_correct.1 CHAF_SOFIT).mpr (by decide),
   (derived_views_correct.2.1 DOUBLE_YOD).mpr (by decide)⟩

/-- C6 counterexample: the five records of `FINAL_LETTERS` are Chaf Sofit,
Mem Sofit, Nun Sofit, Fe Sofit and Tsadi Sofit; no record named Kaf Sofit is
among them, contrary to the claimed enumeration. -/
theorem final_letters_name_counterexample :
    FINAL_LETTERS.map (fun c => c.name) =
      ["Chaf Sofit", "Mem Sofit", "Nun Sofit", "Fe Sofit", "Tsadi Sofit"] ∧
    "Kaf Sofit" ∉ FINAL_LETTERS.map (fun c => c.name) := by decide

/-- C6 amended: `FINAL_LETTERS` is an ordered sequence of exactly five
single-code-point records, named Chaf Sofit, Mem Sofit, Nun Sofit, Fe Sofit
and Tsadi Sofit. -/
theorem final_letters_enumeration :
    FINAL_LETTERS.length = 5 ∧
    FINAL_LETTERS.map (fun c => c.name) =
      ["Chaf Sofit", "Mem Sofit", "Nun Sofit", "Fe Sofit", "Tsadi Sofit"] ∧
    FINAL_LETTERS.map (fun c => c.char.length) = [1, 1, 1, 1, 1] := by decide

/-- C7: a char lookup that matches no record and a name search that matches
no record both return `none` as an ordinary value. -/
theorem not_found_returns_none :
    dictGet CHARS "Ω" = none ∧ HebrewChar.search "NotARealName" = none := by
  decide

/-- C8: every record of the table has a non-empty char and a non-empty names
list in which no entry is the empty string. -/
theorem table_invariants :
    ∀ c ∈ _ALL_CHARS,
      c.char ≠ "" ∧ c.names ≠ [] ∧ ∀ n ∈ c.names, n ≠ "" := by decide

/-- Witness for C8 at the Aleph record. -/
theorem table_invariants_witness :
    ALEPH ∈ _ALL_CHARS ∧ ALEPH.char ≠ "" :=
  ⟨by decide, (table_invariants ALEPH (by decide)).1⟩

/-- C1 counterexample: "Saf" is among the names of the Double Yod record, yet
searching for "Saf" yields the Sav record, whose char differs from the char
of Double Yod — the round-trip claim fails at this record and name. -/
theorem search_roundtrip_counterexample :
    DOUBLE_YOD ∈ _ALL_CHARS ∧ "Saf" ∈ DOUBLE_YOD.names ∧
    lowerStr "Saf" = lowerStr "Saf" ∧
    (HebrewChar.search "Saf").map (fun c => c.char) = some SAV.char ∧
    SAV.char ≠ DOUBLE_YOD.char := by decide

/-- C1 amended: for every record R of the table and every name N of R, and
any casing of N, `HebrewChar.search` returns a record with the char of R —
except for the two shadowed pairs, the alias "Saf" of Double Yod (taken by
Sav, declared earlier) and the canonical name "Fe Sofit" of the plain
Fe Sofit record (taken by the dagesh form declared earlier). -/
theorem search_roundtrip_amended :
    ∀ R ∈ _ALL_CHARS, ∀ N ∈ R.names, ∀ q : String,
      lowerStr q = lowerStr N →
      ¬((R = FE_SOFIT ∧ N = "Fe Sofit") ∨ (R = DOUBLE_YOD ∧ N = "Saf")) →
      (HebrewChar.search q).map (fun c => c.char) = some R.char := by
  intro R hR N hN q hq hexcl
  have h1 : HebrewChar.search q = searchKey (lowerStr N) := by
    rw [search_eq_searchKey, hq]
  rw [h1]
  exact roundtrip_core R hR N hN hexcl

/-- Witness for the amended C1 at the Aleph record, alias "Alef", casing
"ALEF". -/
theorem search_roundtrip_amended_witness :
    ALEPH ∈ _ALL_CHARS ∧ "Alef" ∈ ALEPH.names ∧
    lowerStr "ALEF" = lowerStr "Alef" ∧
    (HebrewChar.search "ALEF").map (fun c => c.char) = some ALEPH.char :=
  ⟨by decide, by decide, by decide,
   search_roundtrip_amended ALEPH (by decide) "Alef" (by decide) "ALEF"
     (by decide) (by decide)⟩

/-- C2: `HebrewChar.search` agrees everywhere with the spec-worded scan
`search_by_name` (first case-insensitive exact match in table order, resolved
through the registry, not-found otherwise); moreover any returned record has
the lowered query among its own lowered names, so a match is never a
substring or fuzzy match. -/
theorem search_follows_spec :
    (∀ q : String, HebrewChar.search q = search_by_name q) ∧
    (∀ q : String, ∀ r : HebrewChar, HebrewChar.search q = some r →
      lowerStr q ∈ r.names.map lowerStr) := by
  constructor
  · intro q
    exact find_scan_eq q _ALL_CHARS
  · intro q r h
    have hf := (search_eq_find q r h).1
    have hp : searchPred (lowerStr q) r = true := List.find?_some hf
    exact of_decide_eq_true hp

/-- Witness for C2 at the query "aleph". -/
theorem search_follows_spec_witness :
    (HebrewChar.search "aleph" = search_by_name "aleph") ∧
    lowerStr "aleph" ∈ ALEPH.names.map lowerStr :=
  ⟨search_follows_spec.1 "aleph",
   search_follows_spec.2 "aleph" ALEPH (by decide)⟩

/-- C9: whenever the scan of `HebrewChar.search` finds a matching record, the
subsequent index access into `CHARS` succeeds, and every record that search
returns is drawn from the table backing the `CHARS` values. -/
theorem search_total_safe :
    (∀ q : String, ∀ c : HebrewChar,
      _ALL_CHARS.find? (searchPred (lowerStr q)) = some c →
      (dictGet CHARS c.char).isSome = true) ∧
    (∀ q : String, ∀ r : HebrewChar, HebrewChar.search q = some r →
      r ∈ _ALL_CHARS) := by
  constructor
  · intro q c hf
    have hmem : c ∈ _ALL_CHARS := List.mem_of_find?_eq_some hf
    rw [dictGet_self c hmem]
    rfl
  · intro q r h
    exact (search_eq_find q r h).2

/-- Witness for C9 at the query "aleph". -/
theorem search_total_safe_witness :
    (dictGet CHARS ALEPH.char).isSome = true ∧ ALEPH ∈ _ALL_CHARS :=
  ⟨search_total_safe.1 "aleph" ALEPH (by decide),
   search_total_safe.2 "aleph" ALEPH (by decide)⟩

/-- C10: any casing of "Saf" makes `HebrewChar.search` return the Sav record,
whose char is the letter Tav without dagesh, never the Double Yod record,
although "Saf" is a declared alternate name of both records. -/
theorem search_saf_returns_sav :
    ∀ q : String, lowerStr q = lowerStr "Saf" →
      HebrewChar.search q = some SAV ∧ SAV.char = "ת" ∧
      "Saf" ∈ SAV.name_alts ∧ "Saf" ∈ DOUBLE_YOD.name_alts ∧
      HebrewChar.search q ≠ some DOUBLE_YOD := by
  intro q hq
  have h1 : HebrewChar.search q = searchKey (lowerStr "Saf") := by
    rw [search_eq_searchKey, hq]
  rw [h1]
  decide

/-- Witness for C10 at the casing "SAF". -/
theorem search_saf_returns_sav_witness :
    lowerStr "SAF" = lowerStr "Saf" ∧ HebrewChar.search "SAF" = some SAV :=
  ⟨by decide, (search_saf_returns_sav "SAF" (by decide)).1⟩
